import Mathlib

/-!
Shallow embedding of the puzzle-NFT program (`programs/puzzle_nft/src`),
covering the solve transition (`instructions/solve_puzzle.rs`), the mint-time
puzzle construction (`instructions/mint_puzzle_nft.rs`), the standalone
verifier and generator in `puzzle.rs`, together with the theorems settling
the specification claims about them.

Machine integers (`u64`) are modelled as `Nat` with explicit reduction
modulo `2 ^ 64` where the source uses wrapping arithmetic; `i64` timestamps
are modelled as `Int` with Rust's truncated remainder.  A Rust panic
(remainder by zero) is modelled as a distinct outcome, separate from the
program's error returns.
-/

namespace PuzzleNft

/-- Key/value attribute pair, mirroring `mpl_core::types::Attribute`
(fields `key` and `value`, both strings). -/
structure Attribute where
  key : String
  value : String
deriving DecidableEq

/-- The program's error enum from `errors.rs` (`PuzzleError`). -/
inductive PuzzleError where
  | incorrectSolution
  | puzzleNotFound
  | notNftOwner
  | alreadySolved
  | invalidPuzzleType
  | failedToParsePuzzleData
  | invalidAssetData
  | attributeNotFound
  | unauthorizedUpdate
deriving DecidableEq

/-- Outcome of one run of the `solve_puzzle` instruction body.
`success` carries the updated attribute list and the assigned rarity;
`failure` carries the returned `PuzzleError`; `panicked` models a Rust
panic (here: the remainder-by-zero reachable in the math_factor branch),
which aborts the transaction without returning a program error. -/
inductive SolveOutcome where
  | success (attrs : List Attribute) (rarity : String)
  | failure (e : PuzzleError)
  | panicked
deriving DecidableEq

/-- The first attribute with the given key, mirroring
`attribute_list.iter().find(|attr| attr.key == k)`. -/
def findAttr (attrs : List Attribute) (k : String) : Option Attribute :=
  attrs.find? (fun a => a.key == k)

/-- Accumulate decimal digits; any non-digit character rejects the string. -/
def parseU64Core : List Char → Nat → Option Nat
  | [], acc => some acc
  | c :: cs, acc =>
    if c.isDigit then parseU64Core cs (acc * 10 + (c.toNat - 48)) else none

/-- Rust `str::parse::<u64>` on a decimal string: nonempty, digits only,
value below `2 ^ 64`; `none` models the `Err` case mapped to
`FailedToParsePuzzleData`. -/
def parseU64 (s : String) : Option Nat :=
  match s.data with
  | [] => none
  | c :: cs =>
    match parseU64Core (c :: cs) 0 with
    | some n => if n < 2 ^ 64 then some n else none
    | none => none

/-- Lowercase hexadecimal rendering of a `u64` value, mirroring
`format!("\x7b:x\x7d", v)` (no leading zeros, `"0"` for zero). -/
def hexLower (n : Nat) : String :=
  String.mk (Nat.toDigits 16 n)

/-- One round of the mixing function `x.wrapping_mul(31).wrapping_add(17)`
on `u64`. -/
def oneRound (x : Nat) : Nat :=
  (x * 31 + 17) % 2 ^ 64

/-- Three rounds of the mixing function, as in the mint-time loop
`for _ in 0..3 \x7b hash_value = hash_value.wrapping_mul(31).wrapping_add(17) \x7d`. -/
def threeRounds (x : Nat) : Nat :=
  oneRound (oneRound (oneRound x))

/-- `generate_solution_hash` from `mint_puzzle_nft.rs`: hex of three rounds
of the mixing function applied to the puzzle number. -/
def generateSolutionHash (puzzleNumber : Nat) : String :=
  hexLower (threeRounds puzzleNumber)

/-- `generate_puzzle_number` from `mint_puzzle_nft.rs`:
`((slot % 1000) + 1) * (difficulty + 1) + (puzzle_type + 1) * 100`.
All quantities stay far below `2 ^ 64`, so plain `Nat` arithmetic is exact. -/
def generatePuzzleNumber (slot puzzleType difficulty : Nat) : Nat :=
  ((slot % 1000) + 1) * (difficulty + 1) + (puzzleType + 1) * 100

/-- `get_puzzle_type_name` from `mint_puzzle_nft.rs`: the recognized type
selectors and the `InvalidPuzzleType` failure for any other selector. -/
def getPuzzleTypeName (puzzleType : Nat) : Except PuzzleError String :=
  match puzzleType with
  | 0 => .ok "math_factor"
  | 1 => .ok "hash_riddle"
  | 2 => .ok "pattern"
  | _ => .error .invalidPuzzleType

/-- The attribute list written at mint time (`mint_puzzle_nft.rs`,
the `Attributes` plugin of `attributes_plugin`). -/
def mintAttributeList (puzzleTypeName : String) (difficulty puzzleNumber slot : Nat) :
    List Attribute :=
  [⟨"puzzle_type", puzzleTypeName⟩,
   ⟨"difficulty", toString difficulty⟩,
   ⟨"puzzle_number", toString puzzleNumber⟩,
   ⟨"solution_hash", generateSolutionHash puzzleNumber⟩,
   ⟨"solved", "false"⟩,
   ⟨"mint_slot", toString slot⟩]

/-- Rarity assignment from `solve_puzzle.rs`: the cascade on
`current_timestamp % 100` with Rust's truncated remainder on `i64`. -/
def rarityOf (t : Int) : String :=
  if Int.tmod t 100 < 10 then "Legendary"
  else if Int.tmod t 100 < 30 then "Epic"
  else if Int.tmod t 100 < 60 then "Rare"
  else "Common"

/-- The body of the update loop in `solve_puzzle.rs`: replace the value of
the first attribute whose key matches (keeping its position and key), or
append a new pair at the end if no key matches. -/
def updateOne : List Attribute → String → String → List Attribute
  | [], k, v => [⟨k, v⟩]
  | a :: rest, k, v =>
    if a.key == k then { a with value := v } :: rest
    else a :: updateOne rest k v

/-- The whole update loop: apply `updateOne` for each pair of the update
list, left to right. -/
def mergeUpdate (attrs : List Attribute) (upds : List (String × String)) :
    List Attribute :=
  upds.foldl (fun acc kv => updateOne acc kv.1 kv.2) attrs

/-- The `solution_attributes` vector built in `solve_puzzle.rs`:
solved flag, solver, submitted solution, timestamp, rarity. -/
def solveUpdates (caller solution : Nat) (t : Int) (rarity : String) :
    List (String × String) :=
  [("solved", "true"),
   ("solver", toString caller),
   ("solution", toString solution),
   ("solve_timestamp", toString t),
   ("rarity", rarity)]

/-- The deserialized asset state the solve instruction operates on:
the recorded owner of the `BaseAssetV1` (identities modelled as `Nat`)
and the attribute list of the asset's `Attributes` plugin. -/
structure SolveState where
  assetOwner : Nat
  attributeList : List Attribute
deriving DecidableEq

/-- The `solve_puzzle` instruction body (`solve_puzzle.rs`), after asset
deserialization, as a function of the state, the calling identity, the
candidate solution and the clock timestamp.  The control flow follows the
source: ownership check first (`require_eq` → `NotNftOwner`), then the
`solved` attribute (`AttributeNotFound` if absent, `AlreadySolved` if
`"true"`), then `puzzle_number` / `solution_hash` / `puzzle_type` lookups
(`PuzzleNotFound` / `FailedToParsePuzzleData`), then the per-type check:
for `"math_factor"` the source computes `puzzle_number % solution` with no
zero guard, so `solution = 0` panics; every other type is checked by
comparing `hex(one round of the mixing function)` with the stored
`solution_hash`. -/
def solvePuzzle (st : SolveState) (caller solution : Nat) (t : Int) : SolveOutcome :=
  if st.assetOwner == caller then
    match findAttr st.attributeList "solved" with
    | none => .failure .attributeNotFound
    | some solvedAttr =>
      if solvedAttr.value == "true" then .failure .alreadySolved
      else
        match findAttr st.attributeList "puzzle_number" with
        | none => .failure .puzzleNotFound
        | some pn =>
          match parseU64 pn.value with
          | none => .failure .failedToParsePuzzleData
          | some puzzleNumber =>
            match findAttr st.attributeList "solution_hash" with
            | none => .failure .puzzleNotFound
            | some sh =>
              match findAttr st.attributeList "puzzle_type" with
              | none => .failure .puzzleNotFound
              | some pt =>
                if pt.value == "math_factor" then
                  if solution == 0 then .panicked
                  else if puzzleNumber % solution != 0 then
                    .failure .incorrectSolution
                  else
                    .success (mergeUpdate st.attributeList
                      (solveUpdates caller solution t (rarityOf t))) (rarityOf t)
                else
                  if hexLower (oneRound solution) != sh.value then
                    .failure .incorrectSolution
                  else
                    .success (mergeUpdate st.attributeList
                      (solveUpdates caller solution t (rarityOf t))) (rarityOf t)
  else .failure .notNftOwner

/-- The math_factor arm of `verify_solution` in `puzzle.rs`:
`solution > 0 && number % solution == 0` (short-circuit, so the remainder
is only taken for positive solutions). -/
def mathFactorVerify (number solution : Nat) : Bool :=
  decide (0 < solution) && (number % solution == 0)

/-- The puzzle-number formula of `generate_puzzle` in `puzzle.rs`, as a
function of the first byte of the seed hash:
`(b % 45 + 10) * 2`, then floored at 20. -/
def generateNumberFromByte (b : Nat) : Nat :=
  let number := (b % 45 + 10) * 2
  if number < 20 then 20 else number

/-- Count of the nontrivial factors of `n`: divisors `d` with `1 < d < n`. -/
def nontrivialFactorCount (n : Nat) : Nat :=
  ((List.range (n + 1)).filter
    (fun d => decide (2 ≤ d) && decide (d < n) && (n % d == 0))).length

/-- A freshly minted, unsolved math_factor asset owned by identity 1:
the attribute list `mint_puzzle_nft` writes for slot 42, type selector 0
(`math_factor`), difficulty 1, so `puzzle_number = 186`. -/
def exMathState : SolveState :=
  ⟨1, mintAttributeList "math_factor" 1 186 42⟩

/-- A freshly minted, unsolved hash_riddle asset owned by identity 1:
slot 42, type selector 1 (`hash_riddle`), difficulty 1, so
`puzzle_number = 286` and `solution_hash = hex(three rounds of 286)`. -/
def exHashState : SolveState :=
  ⟨1, mintAttributeList "hash_riddle" 1 286 42⟩

/-- The math_factor asset of `exMathState` after its `solved` attribute has
been flipped to `"true"`. -/
def solvedState : SolveState :=
  ⟨1, [⟨"puzzle_type", "math_factor"⟩, ⟨"difficulty", "1"⟩,
       ⟨"puzzle_number", "186"⟩, ⟨"solution_hash", generateSolutionHash 186⟩,
       ⟨"solved", "true"⟩, ⟨"mint_slot", "42"⟩]⟩

/-- An asset whose stored `puzzle_type` is none of the recognized values;
its `solution_hash` is `hex(1 * 31 + 17) = "30"`, so candidate 1 matches the
hash-commitment rule. -/
def bogusState : SolveState :=
  ⟨1, [⟨"puzzle_type", "mystery"⟩, ⟨"puzzle_number", "10"⟩,
       ⟨"solution_hash", "30"⟩, ⟨"solved", "false"⟩]⟩

end PuzzleNft

namespace PuzzleNft

theorem updateOne_of_absentKey (attrs : List Attribute) (k v : String)
    (h : ∀ a ∈ attrs, a.key ≠ k) : updateOne attrs k v = attrs ++ [⟨k, v⟩] := by
  induction attrs with
  | nil => rfl
  | cons a rest ih =>
    have ha : a.key ≠ k := h a (List.mem_cons_self a rest)
    simp [updateOne, ha, ih (fun b hb => h b (List.mem_cons_of_mem a hb))]

theorem updateOne_of_firstKey (pre : List Attribute) (a : Attribute)
    (post : List Attribute) (k v : String) (hpre : ∀ b ∈ pre, b.key ≠ k)
    (ha : a.key = k) :
    updateOne (pre ++ a :: post) k v = pre ++ { a with value := v } :: post := by
  induction pre with
  | nil => simp [updateOne, ha]
  | cons b rest ih =>
    have hb : b.key ≠ k := hpre b (List.mem_cons_self b rest)
    simp [updateOne, hb, ih (fun x hx => hpre x (List.mem_cons_of_mem b hx))]

theorem updateOne_getElem (attrs : List Attribute) (k v : String) (i : Nat)
    (p : Attribute) (hp : attrs[i]? = some p) (hk : p.key ≠ k) :
    (updateOne attrs k v)[i]? = some p := by
  induction attrs generalizing i with
  | nil => simp at hp
  | cons a rest ih =>
    cases i with
    | zero =>
      simp only [List.getElem?_cons_zero, Option.some.injEq] at hp
      subst hp
      simp [updateOne, hk]
    | succ n =>
      simp only [List.getElem?_cons_succ] at hp
      by_cases hak : a.key = k
      · simp [updateOne, hak, hp]
      · simp [updateOne, hak, ih n hp]

theorem mergeUpdate_getElem (upds : List (String × String))
    (attrs : List Attribute) (i : Nat) (p : Attribute) (hp : attrs[i]? = some p)
    (hk : ∀ u ∈ upds, p.key ≠ u.1) : (mergeUpdate attrs upds)[i]? = some p := by
  induction upds generalizing attrs with
  | nil => simpa [mergeUpdate] using hp
  | cons u rest ih =>
    have h1 := updateOne_getElem attrs u.1 u.2 i p hp (hk u (List.mem_cons_self u rest))
    have h2 := ih (updateOne attrs u.1 u.2) h1 (fun x hx => hk x (List.mem_cons_of_mem u hx))
    simpa [mergeUpdate] using h2

theorem findAttr_updateOne_self (attrs : List Attribute) (k v : String) :
    ∃ a, findAttr (updateOne attrs k v) k = some a ∧ a.value = v := by
  induction attrs with
  | nil => exact ⟨⟨k, v⟩, by simp [findAttr, updateOne], rfl⟩
  | cons a rest ih =>
    by_cases hak : a.key = k
    · exact ⟨{ a with value := v }, by simp [findAttr, updateOne, hak], rfl⟩
    · obtain ⟨b, hb, hv⟩ := ih
      refine ⟨b, ?_, hv⟩
      simpa [findAttr, updateOne, hak] using hb

theorem findAttr_updateOne_ne (attrs : List Attribute) (k1 v k : String)
    (hne : k1 ≠ k) : findAttr (updateOne attrs k1 v) k = findAttr attrs k := by
  induction attrs with
  | nil => simp [findAttr, updateOne, hne]
  | cons a rest ih =>
    by_cases hak : a.key = k1
    · simp [findAttr, updateOne, hak, hne]
    · by_cases hk : a.key = k
      · have hkk1 : k ≠ k1 := fun h => hne h.symm
        simp [findAttr, updateOne, hak, hk, hkk1]
      · simpa [findAttr, updateOne, hak, hk] using ih

theorem findAttr_solved_mergeUpdate (attrs : List Attribute) (c s : Nat)
    (t : Int) (r : String) :
    ∃ a, findAttr (mergeUpdate attrs (solveUpdates c s t r)) "solved" = some a ∧
      a.value = "true" := by
  obtain ⟨a, ha, hv⟩ := findAttr_updateOne_self attrs "solved" "true"
  refine ⟨a, ?_, hv⟩
  simp only [mergeUpdate, solveUpdates, List.foldl]
  rw [findAttr_updateOne_ne _ _ _ _ (by decide),
    findAttr_updateOne_ne _ _ _ _ (by decide),
    findAttr_updateOne_ne _ _ _ _ (by decide),
    findAttr_updateOne_ne _ _ _ _ (by decide)]
  exact ha

/-- C7: `merge_update` replaces the value of the first matching key in place
(keeping its original position and key), appends a new pair at the end when
the key is absent, and leaves every pair whose key is not in the update set
unchanged at its original index. -/
theorem merge_update_semantics :
    (∀ (attrs : List Attribute) (k v : String), (∀ a ∈ attrs, a.key ≠ k) →
      updateOne attrs k v = attrs ++ [⟨k, v⟩]) ∧
    (∀ (pre : List Attribute) (a : Attribute) (post : List Attribute) (k v : String),
      (∀ b ∈ pre, b.key ≠ k) → a.key = k →
      updateOne (pre ++ a :: post) k v = pre ++ { a with value := v } :: post) ∧
    (∀ (attrs : List Attribute) (upds : List (String × String)) (i : Nat) (p : Attribute),
      attrs[i]? = some p → (∀ u ∈ upds, p.key ≠ u.1) →
      (mergeUpdate attrs upds)[i]? = some p) :=
  ⟨updateOne_of_absentKey, updateOne_of_firstKey,
    fun attrs upds i p hp hk => mergeUpdate_getElem upds attrs i p hp hk⟩

/-- Witness for C7 at concrete inputs: replacement in place, append at the
end, and preservation of an untouched pair at its index. -/
theorem merge_update_semantics_witness :
    updateOne [⟨"a", "1"⟩, ⟨"b", "2"⟩] "c" "3" =
      [⟨"a", "1"⟩, ⟨"b", "2"⟩, ⟨"c", "3"⟩] ∧
    updateOne ([⟨"a", "1"⟩] ++ ⟨"b", "2"⟩ :: [⟨"b", "9"⟩]) "b" "7" =
      [⟨"a", "1"⟩] ++ ⟨"b", "7"⟩ :: [⟨"b", "9"⟩] ∧
    (mergeUpdate [⟨"a", "1"⟩, ⟨"b", "2"⟩] [("b", "7")])[0]? = some ⟨"a", "1"⟩ :=
  ⟨merge_update_semantics.1 _ "c" "3" (by decide),
    merge_update_semantics.2.1 _ ⟨"b", "2"⟩ _ "b" "7" (by decide) rfl,
    merge_update_semantics.2.2 _ _ 0 ⟨"a", "1"⟩ (by decide) (by decide)⟩

theorem generateNumberFromByte_eq (b : Nat) :
    generateNumberFromByte b = (b % 45 + 10) * 2 := by
  have h : ¬ (b % 45 + 10) * 2 < 20 := by omega
  simp [generateNumberFromByte, h]

/-- C9 counterexample: a seed hash whose first byte is 1 produces the number
22 = 2 * 11, which has exactly two nontrivial factors, not at least three. -/
theorem generator_number_two_factors :
    generateNumberFromByte 1 = 22 ∧ nontrivialFactorCount 22 = 2 ∧
      ¬ 3 ≤ nontrivialFactorCount (generateNumberFromByte 1) := by
  decide

/-- C9 amended: the generated number is exactly `(b % 45 + 10) * 2` for seed
byte `b` (the floor at 20 never fires, the value already being at least 20),
and it always has at least 2 nontrivial factors — but not always 3. -/
theorem generator_number_bounds (b : Nat) :
    generateNumberFromByte b = (b % 45 + 10) * 2 ∧
      20 ≤ generateNumberFromByte b ∧
      2 ≤ nontrivialFactorCount (generateNumberFromByte b) := by
  have heq := generateNumberFromByte_eq b
  have hlt : b % 45 < 45 := Nat.mod_lt b (by decide)
  have hcount : ∀ r, r < 45 → 2 ≤ nontrivialFactorCount ((r + 10) * 2) := by decide
  refine ⟨heq, ?_, ?_⟩
  · rw [heq]; omega
  · rw [heq]; exact hcount _ hlt

theorem solvePuzzle_notOwner (st : SolveState) (c s : Nat) (t : Int)
    (h : c ≠ st.assetOwner) : solvePuzzle st c s t = .failure .notNftOwner := by
  have hb : (st.assetOwner == c) = false := beq_eq_false_iff_ne.mpr (fun he => h he.symm)
  simp [solvePuzzle, hb]

theorem solvePuzzle_alreadySolved (st : SolveState) (c s : Nat) (t : Int)
    (a : Attribute) (hown : st.assetOwner = c)
    (hfind : findAttr st.attributeList "solved" = some a) (hval : a.value = "true") :
    solvePuzzle st c s t = .failure .alreadySolved := by
  simp [solvePuzzle, hown, hfind, hval]

theorem solvePuzzle_success_inv (st : SolveState) (c s : Nat) (t : Int)
    (attrs : List Attribute) (r : String)
    (h : solvePuzzle st c s t = .success attrs r) :
    attrs = mergeUpdate st.attributeList (solveUpdates c s t (rarityOf t)) ∧
      r = rarityOf t := by
  simp only [solvePuzzle] at h
  repeat' split at h
  any_goals exact SolveOutcome.noConfusion h
  all_goals
    injection h with h1 h2
    exact ⟨h1.symm, h2.symm⟩

theorem solvePuzzle_success_owner (st : SolveState) (c s : Nat) (t : Int)
    (attrs : List Attribute) (r : String)
    (h : solvePuzzle st c s t = .success attrs r) : c = st.assetOwner := by
  by_cases hc : c = st.assetOwner
  · exact hc
  · rw [solvePuzzle_notOwner st c s t hc] at h
    exact SolveOutcome.noConfusion h

/-- C5: a solve attempt by any identity other than the asset's recorded
owner fails with NotNftOwner, whatever the candidate solution and the rest
of the state (no mutation: only `success` carries an updated list), and a
successful solve can only be performed by the recorded owner. -/
theorem ownership_gate :
    (∀ (st : SolveState) (c s : Nat) (t : Int), c ≠ st.assetOwner →
      solvePuzzle st c s t = .failure .notNftOwner) ∧
    (∀ (st : SolveState) (c s : Nat) (t : Int) (attrs : List Attribute) (r : String),
      solvePuzzle st c s t = .success attrs r → c = st.assetOwner) :=
  ⟨solvePuzzle_notOwner, solvePuzzle_success_owner⟩

/-- Witness for C5: identity 2 attempting the asset owned by identity 1,
with a correct candidate, still fails with NotNftOwner. -/
theorem ownership_gate_witness :
    solvePuzzle exMathState 2 2 0 = .failure .notNftOwner :=
  ownership_gate.1 exMathState 2 2 0 (by decide)

/-- C2: solve is single-use — on an asset whose `solved` attribute is
`"true"`, the owner's solve attempt fails with AlreadySolved for every
candidate (failures carry no updated attributes, so the list is untouched),
and every successful solve leaves `solved = "true"` in the produced list,
so `solved` never transitions back from `"true"`. -/
theorem solve_single_use :
    (∀ (st : SolveState) (c s : Nat) (t : Int) (a : Attribute),
      st.assetOwner = c → findAttr st.attributeList "solved" = some a →
      a.value = "true" → solvePuzzle st c s t = .failure .alreadySolved) ∧
    (∀ (st : SolveState) (c s : Nat) (t : Int) (attrs : List Attribute) (r : String),
      solvePuzzle st c s t = .success attrs r →
      ∃ a, findAttr attrs "solved" = some a ∧ a.value = "true") := by
  constructor
  · intro st c s t a hown hfind hval
    exact solvePuzzle_alreadySolved st c s t a hown hfind hval
  · intro st c s t attrs r h
    obtain ⟨hattrs, _⟩ := solvePuzzle_success_inv st c s t attrs r h
    subst hattrs
    exact findAttr_solved_mergeUpdate st.attributeList c s t (rarityOf t)

/-- Witness for C2: the owner re-submitting the originally correct divisor 2
on the already-solved asset fails with AlreadySolved. -/
theorem solve_single_use_witness :
    solvePuzzle solvedState 1 2 0 = .failure .alreadySolved :=
  solve_single_use.1 solvedState 1 2 0 ⟨"solved", "true"⟩ rfl (by decide) rfl

/-- C4 counterexample: on an already-solved asset owned by identity 1, a
solve attempt by identity 2 returns NotNftOwner, not the AlreadySolved the
claim predicts — ownership is checked before the solved flag. -/
theorem solved_nonowner_gets_owner_error :
    solvePuzzle solvedState 2 186 0 = .failure .notNftOwner ∧
      ¬ solvePuzzle solvedState 2 186 0 = .failure .alreadySolved := by
  decide

/-- C4 amended: the solve transition checks ownership before the solved
flag and the solved flag before solution verification: on an already-solved
asset, a non-owner gets NotNftOwner while the owner gets AlreadySolved,
whatever the candidate solution. -/
theorem check_order (st : SolveState) (c s : Nat) (t : Int) (a : Attribute)
    (hfind : findAttr st.attributeList "solved" = some a) (hval : a.value = "true") :
    (c ≠ st.assetOwner → solvePuzzle st c s t = .failure .notNftOwner) ∧
    (st.assetOwner = c → solvePuzzle st c s t = .failure .alreadySolved) :=
  ⟨fun hne => solvePuzzle_notOwner st c s t hne,
    fun hown => solvePuzzle_alreadySolved st c s t a hown hfind hval⟩

/-- Witness for C4 at the concrete solved asset and caller 2. -/
theorem check_order_witness :
    (2 ≠ solvedState.assetOwner → solvePuzzle solvedState 2 186 0 = .failure .notNftOwner) ∧
    (solvedState.assetOwner = 2 → solvePuzzle solvedState 2 186 0 = .failure .alreadySolved) :=
  check_order solvedState 2 186 0 ⟨"solved", "true"⟩ (by decide) rfl

/-- C1 counterexample: candidate 0 fails the claimed acceptance condition,
yet the solve does not fail with IncorrectSolution — it reaches the
unguarded `puzzle_number % 0` and panics. -/
theorem math_zero_not_incorrect_solution :
    solvePuzzle exMathState 1 0 5 = SolveOutcome.panicked ∧
      ¬ solvePuzzle exMathState 1 0 5 = .failure .incorrectSolution := by
  decide

/-- C1 amended: on an unsolved math_factor puzzle, for every candidate
`s > 0` the owner's solve succeeds exactly when `s` divides the stored
puzzle_number and otherwise fails with IncorrectSolution; candidate 0 is
not rejected with IncorrectSolution but hits an unguarded remainder by
zero.  The standalone `verify_solution` in `puzzle.rs` does realize the
claimed full condition `solution > 0 && puzzle_number % solution == 0`. -/
theorem math_factor_verification (st : SolveState) (c s : Nat) (t : Int)
    (sv pn sh pt : Attribute) (n : Nat)
    (hown : st.assetOwner = c)
    (hsv : findAttr st.attributeList "solved" = some sv) (hsvv : sv.value ≠ "true")
    (hpn : findAttr st.attributeList "puzzle_number" = some pn)
    (hn : parseU64 pn.value = some n)
    (hsh : findAttr st.attributeList "solution_hash" = some sh)
    (hpt : findAttr st.attributeList "puzzle_type" = some pt)
    (hptv : pt.value = "math_factor") (hs : 0 < s) :
    solvePuzzle st c s t =
      (if n % s = 0 then
        .success (mergeUpdate st.attributeList (solveUpdates c s t (rarityOf t))) (rarityOf t)
      else .failure .incorrectSolution) ∧
    (mathFactorVerify n s = true ↔ 0 < s ∧ n % s = 0) := by
  constructor
  · have hs0 : (s == 0) = false :=
      beq_eq_false_iff_ne.mpr (Nat.pos_iff_ne_zero.mp hs)
    by_cases hmod : n % s = 0 <;>
      simp [solvePuzzle, hown, hsv, hsvv, hpn, hn, hsh, hpt, hptv, hs0, hmod]
  · simp [mathFactorVerify]

/-- Witness for C1 at the minted math_factor asset: the owner solving with
the divisor 2 of 186. -/
theorem math_factor_verification_witness :
    (solvePuzzle exMathState 1 2 0 =
      (if 186 % 2 = 0 then
        SolveOutcome.success
          (mergeUpdate exMathState.attributeList (solveUpdates 1 2 0 (rarityOf 0)))
          (rarityOf 0)
      else .failure .incorrectSolution)) ∧
    (mathFactorVerify 186 2 = true ↔ 0 < 2 ∧ 186 % 2 = 0) :=
  math_factor_verification exMathState 1 2 0 ⟨"solved", "false"⟩
    ⟨"puzzle_number", "186"⟩ ⟨"solution_hash", generateSolutionHash 186⟩
    ⟨"puzzle_type", "math_factor"⟩ 186 rfl (by decide) (by decide) (by decide)
    (by decide) (by decide) (by decide) rfl (by decide)

/-- C10: calling solve with candidate 0 on an unsolved math_factor puzzle,
as its owner, does not return IncorrectSolution: the code evaluates the
unguarded `puzzle_number % 0` and panics. -/
theorem math_zero_panics : solvePuzzle exMathState 1 0 0 = SolveOutcome.panicked := by
  decide

/-- C3 counterexample: the asset minted with `puzzle_number = 286` stores
`solution_hash = hex(three rounds of 286)`; under the claimed three-round
recomputation candidate 286 would be accepted, but the solve rejects it
with IncorrectSolution because its recomputation uses only one round. -/
theorem hash_mint_verify_mismatch :
    findAttr exHashState.attributeList "solution_hash" =
      some ⟨"solution_hash", hexLower (threeRounds 286)⟩ ∧
    solvePuzzle exHashState 1 286 0 = .failure .incorrectSolution ∧
    ¬ hexLower (oneRound 286) = hexLower (threeRounds 286) := by
  decide

/-- C3 amended: for every non-math_factor puzzle, the solve verification
recomputes the candidate commitment as the lowercase-hex of ONE round of
`x * 31 + 17` applied to the candidate and accepts exactly when it equals
the stored solution_hash, whereas the solution_hash written at mint time is
the hex of THREE rounds applied to the puzzle number — the two functions
differ. -/
theorem hash_verification_one_round (st : SolveState) (c s : Nat) (t : Int)
    (sv pn sh pt : Attribute) (n : Nat)
    (hown : st.assetOwner = c)
    (hsv : findAttr st.attributeList "solved" = some sv) (hsvv : sv.value ≠ "true")
    (hpn : findAttr st.attributeList "puzzle_number" = some pn)
    (hn : parseU64 pn.value = some n)
    (hsh : findAttr st.attributeList "solution_hash" = some sh)
    (hpt : findAttr st.attributeList "puzzle_type" = some pt)
    (hptv : pt.value ≠ "math_factor") :
    solvePuzzle st c s t =
      (if hexLower (oneRound s) = sh.value then
        .success (mergeUpdate st.attributeList (solveUpdates c s t (rarityOf t))) (rarityOf t)
      else .failure .incorrectSolution) ∧
    (∀ m : Nat, generateSolutionHash m = hexLower (threeRounds m)) := by
  constructor
  · by_cases hcmp : hexLower (oneRound s) = sh.value <;>
      simp [solvePuzzle, hown, hsv, hsvv, hpn, hn, hsh, hpt, hptv, hcmp]
  · intro m
    rfl

/-- Witness for C3 at the minted hash_riddle asset: 275390 is the unique
candidate whose one-round hex matches the stored three-round hash of 286. -/
theorem hash_verification_one_round_witness :
    (solvePuzzle exHashState 1 275390 0 =
      (if hexLower (oneRound 275390) = generateSolutionHash 286 then
        SolveOutcome.success
          (mergeUpdate exHashState.attributeList (solveUpdates 1 275390 0 (rarityOf 0)))
          (rarityOf 0)
      else .failure .incorrectSolution)) ∧
    (∀ m : Nat, generateSolutionHash m = hexLower (threeRounds m)) :=
  hash_verification_one_round exHashState 1 275390 0 ⟨"solved", "false"⟩
    ⟨"puzzle_number", "286"⟩ ⟨"solution_hash", generateSolutionHash 286⟩
    ⟨"puzzle_type", "hash_riddle"⟩ 286 rfl (by decide) (by decide) (by decide)
    (by decide) (by decide) (by decide) (by decide)

/-- C8 counterexample: a stored puzzle_type outside the recognized values
(`"mystery"`) is not rejected with InvalidPuzzleType — the solve applies
the hash-commitment rule to it and here even succeeds. -/
theorem unknown_type_uses_hash_rule :
    solvePuzzle bogusState 1 1 0 =
      SolveOutcome.success
        (mergeUpdate bogusState.attributeList (solveUpdates 1 1 0 "Legendary"))
        "Legendary" ∧
    ¬ solvePuzzle bogusState 1 1 0 = .failure .invalidPuzzleType := by
  decide

/-- C8 amended: solution verification inside the solve transition never
produces InvalidPuzzleType for any state or input — every puzzle_type
other than `"math_factor"`, recognized or not, is funneled into the
hash-commitment branch (the error only exists at mint-time selection,
`getPuzzleTypeName`). -/
theorem solve_never_invalid_puzzle_type (st : SolveState) (c s : Nat) (t : Int) :
    ¬ solvePuzzle st c s t = .failure .invalidPuzzleType := by
  intro h
  simp only [solvePuzzle] at h
  repeat' split at h
  all_goals simp_all

/-- Witness for C8: the unknown-type asset solved by a non-owner returns
NotNftOwner, and in particular not InvalidPuzzleType. -/
theorem solve_never_invalid_puzzle_type_witness :
    solvePuzzle bogusState 2 1 0 = .failure .notNftOwner ∧
      ¬ solvePuzzle bogusState 2 1 0 = .failure .invalidPuzzleType :=
  ⟨by decide, solve_never_invalid_puzzle_type bogusState 2 1 0⟩

/-- C6: rarity is the claimed pure function of the solve timestamp — the
eight boundary residues 0, 9, 10, 29, 30, 59, 60, 99 map to Legendary,
Legendary, Epic, Epic, Rare, Rare, Common, Common, and for every
non-negative timestamp the assignment follows the `t mod 100` cascade
(the source computes Rust's truncated `%` on `i64`, which agrees with the
mathematical residue for non-negative timestamps). -/
theorem rarity_assignment :
    (rarityOf 0 = "Legendary" ∧ rarityOf 9 = "Legendary" ∧ rarityOf 10 = "Epic" ∧
      rarityOf 29 = "Epic" ∧ rarityOf 30 = "Rare" ∧ rarityOf 59 = "Rare" ∧
      rarityOf 60 = "Common" ∧ rarityOf 99 = "Common") ∧
    (∀ t : Int, 0 ≤ t →
      rarityOf t =
        if t % 100 < 10 then "Legendary"
        else if t % 100 < 30 then "Epic"
        else if t % 100 < 60 then "Rare"
        else "Common") := by
  constructor
  · decide
  · intro t ht
    unfold rarityOf
    rw [Int.tmod_eq_emod ht (by norm_num)]

/-- Witness for C6 at timestamp 42. -/
theorem rarity_assignment_witness :
    rarityOf 42 =
      if (42 : Int) % 100 < 10 then "Legendary"
      else if (42 : Int) % 100 < 30 then "Epic"
      else if (42 : Int) % 100 < 60 then "Rare"
      else "Common" :=
  rarity_assignment.2 42 (by decide)

end PuzzleNft
